import Mathlib

/-!
# Verification of the agent-windows collection/delivery pipeline

Shallow embedding of the collection-orchestration and push-delivery core of
the `Brownster/agent-windows` repository: the network-interface type
classifier, the orchestrator (`Collection`) lifecycle functions `Enable`,
`Build`, `Close` and the collection cycle, the delivery loop
(`runPushGateway` / `pushMetrics`), the agent-labeling facade
(`AgentCollectorWrapper`), and the flag expansion `expandEnabledCollectors`.

Pure Go string functions are embedded as structural functions on `List Char`
so that all definitions are executable and decidable.
-/

namespace AgentWindows

/-! ## String primitives (embedding of the Go `strings` operations used) -/

/-- Embedding of Go `strings.Contains` on char lists: `pat` occurs as a
contiguous substring of `hay`. -/
def containsSub : List Char → List Char → Bool
  | hay, pat =>
    if pat.isPrefixOf hay then true
    else
      match hay with
      | [] => false
      | _ :: t => containsSub t pat

/-- Embedding of `strings.Contains (strings.ToLower name) pat` for an
already-lowercase pattern `pat`. -/
def strContainsLower (name : String) (pat : String) : Bool :=
  containsSub (name.toList.map Char.toLower) pat.toList

/-- Embedding of Go `strings.Split(s, ",")` on char lists. -/
def splitComma : List Char → List (List Char)
  | [] => [[]]
  | c :: rest =>
    let r := splitComma rest
    if c = ',' then [] :: r
    else
      match r with
      | [] => [[c]]
      | h :: t => (c :: h) :: t

/-- Fuel-indexed worker for `strings.ReplaceAll`: replaces non-overlapping
occurrences of `pat` left to right. -/
def replaceAllAux : Nat → List Char → List Char → List Char → List Char
  | 0, s, _, _ => s
  | fuel + 1, s, pat, repl =>
    match s with
    | [] => []
    | c :: t =>
      if pat ≠ [] ∧ pat.isPrefixOf s then
        repl ++ replaceAllAux fuel (s.drop pat.length) pat repl
      else
        c :: replaceAllAux fuel t pat repl

/-- Embedding of Go `strings.ReplaceAll(s, pat, repl)`. -/
def replaceAll (s pat repl : String) : String :=
  String.mk (replaceAllAux s.toList.length s.toList pat.toList repl.toList)

/-- Embedding of Go `slices.Compact`: collapse runs of consecutive equal
elements to a single element. -/
def compact : List String → List String
  | [] => []
  | [a] => [a]
  | a :: b :: rest =>
    if a = b then compact (b :: rest) else a :: compact (b :: rest)

/-! ## Network-interface type classifier (`internal/collector/net`)

Stage 1 is the `interfaceType` map, present verbatim in the source
(`package net` file with the Windows `IF_TYPE_*` codes).  The body of
`GetInterfaceType` itself is not under `src/` (only its tests, its callers
and the repository documentation are), so stage 2 is modelled from the
spec. -/

/-- The `interfaceType` map from the source: direct Windows type-code to
category mapping (`IF_TYPE_ETHERNET_CSMACD = 6`, `IF_TYPE_IEEE80211 = 71`,
`IF_TYPE_PPP = 23`, `IF_TYPE_TUNNEL = 131`, `IF_TYPE_SOFTWARE_LOOPBACK = 24`,
plus `144 → ethernet` and `237 → wifi`). -/
def interfaceTypeMap (t : Nat) : Option String :=
  if t = 6 then some "ethernet"
  else if t = 71 then some "wifi"
  else if t = 23 then some "cellular"
  else if t = 131 then some "vpn"
  else if t = 24 then some "loopback"
  else if t = 144 then some "ethernet"
  else if t = 237 then some "wifi"
  else none

/-- VPN/virtual-adapter name patterns (ADR-002). -/
def vpnPatterns : List String :=
  ["vpn", "tap", "tun", "virtual", "vmware", "virtualbox", "hyper-v"]

/-- WiFi name patterns (ADR-002). -/
def wifiPatterns : List String :=
  ["wi-fi", "wifi", "wireless", "802.11", "wlan"]

/-- Ethernet name patterns (ADR-002). -/
def ethernetPatterns : List String :=
  ["ethernet", "gigabit", "fast ethernet", "realtek pcie"]

/-- Cellular name patterns (ADR-002). -/
def cellularPatterns : List String :=
  ["cellular", "mobile", "3g", "4g", "lte", "5g", "modem"]

/-- `true` iff the lower-cased adapter name contains one of the patterns. -/
def matchesAny (pats : List String) (name : String) : Bool :=
  pats.any (fun p => strContainsLower name p)

/-- Modelled from the spec: `net.GetInterfaceType` — its implementation is
not under `src/` (only its unit tests, the `interfaceType` stage-1 table and
ADR-002 are).  Stage 1: a direct type-code mapping wins immediately.
Stage 2: case-insensitive substring tests against the adapter name in the
fixed priority VPN/virtual, then wifi, then ethernet, then cellular; first
match wins; otherwise `unknown`. -/
def GetInterfaceType (ifType : Nat) (friendlyName : String) : String :=
  match interfaceTypeMap ifType with
  | some t => t
  | none =>
    if matchesAny vpnPatterns friendlyName then "vpn"
    else if matchesAny wifiPatterns friendlyName then "wifi"
    else if matchesAny ethernetPatterns friendlyName then "ethernet"
    else if matchesAny cellularPatterns friendlyName then "cellular"
    else "unknown"

/-! ## Orchestrator (`Collection`, `pkg/collector`)

`Enable`, `Build`, `Close` and `Collectors` are embedded from the source in
`src/unnamed/part_006`.  The Go `map[string]Collector` is embedded as an
association list with map-style insertion (overwrite on duplicate key). -/

/-- Simulated metric source: its `Build` result. -/
structure SourceSim where
  buildErr : Option String
deriving DecidableEq

/-- The orchestrator state: the enabled collector map and whether the shared
MI session handle is currently held. -/
structure Collection where
  collectors : List (String × SourceSim)
  miSession : Bool
deriving DecidableEq

/-- Go map lookup `m[name]` on the association-list embedding. -/
def lookupName {α : Type} (m : List (String × α)) (k : String) : Option α :=
  match m with
  | [] => none
  | (k2, v) :: rest => if k2 = k then some v else lookupName rest k

/-- Go map assignment `m[k] = v` on the association-list embedding:
overwrite if the key is present, append otherwise. -/
def mapInsert {α : Type} (m : List (String × α)) (k : String) (v : α) :
    List (String × α) :=
  if (lookupName m k).isSome then
    m.map (fun kv => if kv.1 = k then (k, v) else kv)
  else m ++ [(k, v)]

/-- The key list of the association-list embedding of a Go map. -/
def keys {α : Type} (m : List (String × α)) : List String := m.map Prod.fst

/-- The loop body of `Collection.Enable`: look each requested name up in the
registry, building the `enabled` map; the first unknown name aborts with the
`"collector <name> not available"` error. -/
def enableLoop (m : List (String × SourceSim)) (names : List String)
    (acc : List (String × SourceSim)) : Except String (List (String × SourceSim)) :=
  match names with
  | [] => .ok acc
  | n :: rest =>
    match lookupName m n with
    | some c => enableLoop m rest (mapInsert acc n c)
    | none => .error ("collector " ++ n ++ " not available")

/-- Embedding of `Collection.Enable`: returns (error?, updated collection).
The Go code assigns `c.collectors = enabled` only after the whole loop
succeeds, so on error the receiver is unchanged. -/
def Collection.enable (c : Collection) (names : List String) :
    Option String × Collection :=
  match enableLoop c.collectors names [] with
  | .ok enabled => (none, { c with collectors := enabled })
  | .error e => (some e, c)

/-- Embedding of `Collection.Collectors`: the enabled names, sorted. -/
def Collection.collectorNames (c : Collection) : List String :=
  (keys c.collectors).mergeSort (fun a b => decide (a ≤ b))

/-- The build loop of `Collection.Build`: build each enabled collector in
iteration order, aborting with `"failed to build <name> collector: <err>"`
on the first failure. -/
def buildLoop (cs : List (String × SourceSim)) : Option String :=
  match cs with
  | [] => none
  | (n, s) :: rest =>
    match s.buildErr with
    | some e => some ("failed to build " ++ n ++ " collector: " ++ e)
    | none => buildLoop rest

/-- Embedding of `Collection.Build`: acquires the shared MI session, stores
it in the receiver (`c.miSession = session`), then builds every enabled
collector; a failure aborts Build with the error.  Build itself never closes
the session. -/
def Collection.build (c : Collection) : Option String × Collection :=
  (buildLoop c.collectors, { c with miSession := true })

/-- Embedding of `Collection.Close`: closes all collectors, then releases
the MI session if it is held. -/
def Collection.close (c : Collection) : Collection :=
  { c with miSession := false }

/-- Embedding of the Build step of `run()` in `cmd/agent/main.go`: on a
Build error, `run` logs and returns exit code 1; no `Collection.Close` call
appears anywhere in `run`, so nothing further touches the session. -/
def runBuildStep (c : Collection) : Nat × Collection :=
  match c.build with
  | (some _, c2) => (1, c2)
  | (none, c2) => (0, c2)

/-- The four-collector registry built by `NewWithFlags` / `NewWithConfig`
(cpu, memory, net, pagefile), with sources whose Build succeeds. -/
def registryC : Collection :=
  { collectors :=
      [("cpu", ⟨none⟩), ("memory", ⟨none⟩), ("net", ⟨none⟩), ("pagefile", ⟨none⟩)]
  , miSession := false }

/-- A collection whose single enabled source fails to build. -/
def cBuildFail : Collection :=
  { collectors := [("cpu", ⟨some "boom"⟩)], miSession := false }

/-! ## Collection cycle (`Collection.Collect` / `collectAll`)

`Collection.Collect` (part_006) delegates to `collectAll`, whose body is not
under `src/`; the cycle is modelled from the spec (§4.1, §5): per enabled
source an outcome of success, error (logged and skipped) or timeout
(partial output discarded), with the three per-source meta-metrics emitted
exactly once each regardless of outcome, plus the whole-cycle scrape
duration. -/

/-- Outcome of one source in one collection cycle. -/
inductive Outcome where
  | ok
  | errored
  | timedOut
deriving DecidableEq

/-- One enabled source during a cycle: its name, its outcome, and the
ordinary samples it would emit on success. -/
structure CycleSource where
  name : String
  outcome : Outcome
  sampleIds : List Nat
deriving DecidableEq

/-- A sample reaching the sink: a source's ordinary sample or one of the
orchestrator's meta-metrics. -/
inductive Sample where
  | ordinary (source : String) (id : Nat)
  | durationMetric (source : String)
  | successMetric (source : String) (value : Bool)
  | timeoutMetric (source : String) (value : Bool)
  | scrapeDuration
deriving DecidableEq

/-- The labels the orchestrator itself attaches to a sample: the
meta-metrics carry the `collector` label (part_006 descriptors); ordinary
samples are relayed with whatever labels their source chose (none added). -/
def sampleLabels : Sample → List (String × String)
  | .ordinary _ _ => []
  | .durationMetric s => [("collector", s)]
  | .successMetric s _ => [("collector", s)]
  | .timeoutMetric s _ => [("collector", s)]
  | .scrapeDuration => []

/-- Modelled from the spec: the per-source part of `collectAll` — on
success the source's ordinary samples are forwarded; an errored source is
logged and skipped; a timed-out source's partial output is discarded; in
every case the duration/success/timeout meta-metrics are emitted once. -/
def collectOne (s : CycleSource) : List Sample :=
  (match s.outcome with
    | .ok => s.sampleIds.map (Sample.ordinary s.name)
    | .errored => []
    | .timedOut => []) ++
  [Sample.durationMetric s.name,
   Sample.successMetric s.name (decide (s.outcome = Outcome.ok)),
   Sample.timeoutMetric s.name (decide (s.outcome = Outcome.timedOut))]

/-- Modelled from the spec: `Collection.collectAll` — its body is not under
`src/` (only `Collection.Collect`'s call to it is); every enabled source
contributes its cycle output, and the whole-cycle scrape-duration
meta-metric is emitted once. -/
def collectAll (sources : List CycleSource) : List Sample :=
  List.flatten (sources.map collectOne) ++ [Sample.scrapeDuration]

/-- Recognizer: the duration meta-metric of source `nm`. -/
def isDurationFor (nm : String) : Sample → Bool
  | .durationMetric s => s == nm
  | _ => false

/-- Recognizer: the success meta-metric of source `nm` (either value). -/
def isSuccessFor (nm : String) : Sample → Bool
  | .successMetric s _ => s == nm
  | _ => false

/-- Recognizer: the timeout meta-metric of source `nm` (either value). -/
def isTimeoutFor (nm : String) : Sample → Bool
  | .timeoutMetric s _ => s == nm
  | _ => false

/-- A demonstration cycle: cpu succeeds with one sample, net times out. -/
def demoCycle : List CycleSource :=
  [⟨"cpu", Outcome.ok, [10]⟩, ⟨"net", Outcome.timedOut, [20]⟩]

/-! ## Agent-labeling facade and push delivery (`cmd/agent/main.go`) -/

/-- A Prometheus metric as seen by the facade: a name and its label set. -/
structure Metric where
  name : String
  labels : List (String × String)
deriving DecidableEq

/-- Embedding of `AgentCollectorWrapper`: holds the configured agent
identity (and the wrapped collection, irrelevant to the sample flow). -/
structure AgentCollectorWrapper where
  agentID : String
deriving DecidableEq

/-- Embedding of `AgentCollectorWrapper.Collect`: the orchestrator's
samples are collected into a buffered channel on a separate goroutine and
every metric is relayed onward unchanged — no label is added. -/
def AgentCollectorWrapper.collect (_ : AgentCollectorWrapper)
    (ms : List Metric) : List Metric :=
  ms

/-- The push configuration (`PushConfig` in `cmd/agent/main.go`). -/
structure PushConfigM where
  url : String
  username : String
  password : String
  jobName : String
  agentID : String
deriving DecidableEq

/-- The delivery request issued by one push. -/
structure PushRequest where
  method : String
  path : String
  basicAuth : Option (String × String)
  grouping : List (String × String)
deriving DecidableEq

/-- Embedding of `pushMetrics`' request construction:
`push.New(url, job).Gatherer(registry).Grouping("agent_id", id)` issues an
HTTP PUT to `url + "/metrics/job/" + job + "/agent_id/" + id` (the wire
shape of the external push client library, modelled from the spec §6 and
the repository's `TestPushMetrics`); BasicAuth credentials are attached iff
both username and password are non-empty. -/
def pushRequest (cfg : PushConfigM) : PushRequest :=
  { method := "PUT"
  , path := cfg.url ++ "/metrics/job/" ++ cfg.jobName ++ "/agent_id/" ++ cfg.agentID
  , basicAuth :=
      if cfg.username ≠ "" ∧ cfg.password ≠ "" then
        some (cfg.username, cfg.password)
      else none
  , grouping := [("agent_id", cfg.agentID)] }

/-! ## Delivery loop (`runPushGateway` / `pushMetrics` failure handling) -/

/-- Log levels used by the delivery path. -/
inductive LogLevel where
  | debug
  | info
  | warn
  | error
deriving DecidableEq

/-- One structured log event: its level and whether it carries the `err`
and `duration` attributes. -/
structure LogEvent where
  level : LogLevel
  hasErr : Bool
  hasDuration : Bool
  msg : String
deriving DecidableEq

/-- Embedding of `pushMetrics`' logging and return behavior: a failed push
is logged at error level with the `err` and `duration` attributes and the
error is returned; a successful push is logged at debug level with the
`duration` attribute and nil is returned. -/
def pushMetricsRun (fail : Bool) : List LogEvent × Option Unit :=
  if fail then
    ([⟨LogLevel.error, true, true, "Failed to push metrics"⟩], some ())
  else
    ([⟨LogLevel.debug, false, true, "Successfully pushed metrics"⟩], none)

/-- One scheduler event of the delivery loop: a ticker tick (with the push
outcome it will observe) or a shutdown signal (ctx done / stop channel). -/
inductive LoopEvent where
  | tick (pushFails : Bool)
  | shutdown
deriving DecidableEq

/-- The observable result of running the delivery loop over a finite event
schedule: the logs emitted, the number of pushes attempted, and — if the
loop returned — the value it returned (`none` = Go `nil`). -/
structure LoopRun where
  logs : List LogEvent
  pushes : Nat
  returned : Option (Option Unit)
deriving DecidableEq

/-- Embedding of `runPushGateway`'s `select` loop: shutdown returns nil;
each tick calls `pushMetrics` and a returned error is logged at warning
level with the `err` attribute (no duration) and absorbed. -/
def loopRun : List LoopEvent → LoopRun
  | [] => ⟨[], 0, none⟩
  | LoopEvent.shutdown :: _ => ⟨[], 0, some none⟩
  | LoopEvent.tick fail :: rest =>
    let p := pushMetricsRun fail
    let wlogs : List LogEvent :=
      match p.2 with
      | some _ => [⟨LogLevel.warn, true, false, "Metrics push failed"⟩]
      | none => []
    let r := loopRun rest
    ⟨p.1 ++ wlogs ++ r.logs, r.pushes + 1, r.returned⟩

/-- Embedding of `runPushGateway`: one initial push before the loop (its
failure logged at warning level and absorbed), then the ticking loop. -/
def runPushGateway (initialFail : Bool) (events : List LoopEvent) : LoopRun :=
  let p := pushMetricsRun initialFail
  let wlogs : List LogEvent :=
    match p.2 with
    | some _ => [⟨LogLevel.warn, true, false, "Initial metrics push failed"⟩]
    | none => []
  let r := loopRun events
  ⟨p.1 ++ wlogs ++ r.logs, r.pushes + 1, r.returned⟩

/-- Number of ticks before the first shutdown in the schedule. -/
def ticksBefore : List LoopEvent → Nat
  | [] => 0
  | LoopEvent.shutdown :: _ => 0
  | LoopEvent.tick _ :: rest => ticksBefore rest + 1

/-! ## Collector flag expansion (`expandEnabledCollectors`, `cmd/agent/main.go`) -/

/-- The supported collector names of the lightweight agent. -/
def supportedCollectors : List String := ["cpu", "memory", "net", "pagefile"]

/-- Embedding of `expandEnabledCollectors`: expand the `[defaults]` token,
split on commas, collapse consecutive duplicates (`slices.Compact`), and
keep only the supported collector names. -/
def expandEnabledCollectors (enabled : String) : List String :=
  let expanded := replaceAll enabled "[defaults]" "cpu,memory,net,pagefile"
  let requested := compact ((splitComma expanded.toList).map String.mk)
  requested.filter (fun c => supportedCollectors.contains c)

/-! ## Theorems -/

example : GetInterfaceType 6 "Ethernet" = "ethernet" := by decide
example : GetInterfaceType 0 "Intel(R) Wi-Fi 6 AX200 160MHz" = "wifi" := by decide
example : GetInterfaceType 0 "Realtek PCIe GbE Family Controller" = "ethernet" := by decide
example : GetInterfaceType 0 "TAP-Windows Adapter V9" = "vpn" := by decide
example : GetInterfaceType 0 "Mobile Broadband Adapter" = "cellular" := by decide
example : GetInterfaceType 0 "Qualcomm Atheros QCA9377 Wireless Network Adapter" = "wifi" := by decide
example : GetInterfaceType 0 "Intel(R) Ethernet Connection I217-LM" = "ethernet" := by decide
example : GetInterfaceType 0 "VMware Virtual Ethernet Adapter" = "vpn" := by decide
example : GetInterfaceType 999 "Unknown Adapter" = "unknown" := by decide

/-- C2: for every (type code, adapter name) whose type code has no direct
mapping, the classifier applies the case-insensitive name patterns in the
fixed priority VPN/virtual, wifi, ethernet, cellular, first match winning;
in particular `"VMware Virtual Ethernet Adapter"` (matching both a VPN and
an ethernet pattern) with an unknown type code classifies as `vpn`. -/
theorem getInterfaceType_name_priority (t : Nat) (name : String)
    (hd : interfaceTypeMap t = none) :
    (matchesAny vpnPatterns name = true → GetInterfaceType t name = "vpn") ∧
    (matchesAny vpnPatterns name = false → matchesAny wifiPatterns name = true →
      GetInterfaceType t name = "wifi") ∧
    (matchesAny vpnPatterns name = false → matchesAny wifiPatterns name = false →
      matchesAny ethernetPatterns name = true → GetInterfaceType t name = "ethernet") ∧
    (matchesAny vpnPatterns name = false → matchesAny wifiPatterns name = false →
      matchesAny ethernetPatterns name = false → matchesAny cellularPatterns name = true →
      GetInterfaceType t name = "cellular") ∧
    (matchesAny vpnPatterns name = false → matchesAny wifiPatterns name = false →
      matchesAny ethernetPatterns name = false → matchesAny cellularPatterns name = false →
      GetInterfaceType t name = "unknown") ∧
    (matchesAny vpnPatterns "VMware Virtual Ethernet Adapter" = true ∧
      matchesAny ethernetPatterns "VMware Virtual Ethernet Adapter" = true ∧
      GetInterfaceType 0 "VMware Virtual Ethernet Adapter" = "vpn") := by
  refine ⟨fun h1 => ?_, fun h1 h2 => ?_, fun h1 h2 h3 => ?_,
    fun h1 h2 h3 h4 => ?_, fun h1 h2 h3 h4 => ?_, by decide, by decide, by decide⟩
  all_goals simp [GetInterfaceType, hd, *]

/-- Witness for C2 at a concrete input from the repository's test table. -/
theorem getInterfaceType_name_priority_witness :
    interfaceTypeMap 0 = none ∧
    GetInterfaceType 0 "TAP-Windows Adapter V9" = "vpn" :=
  ⟨by decide,
    (getInterfaceType_name_priority 0 "TAP-Windows Adapter V9" (by decide)).1 (by decide)⟩

/-- C8: a type code with a direct mapping short-circuits the classifier —
the mapped category is returned regardless of the adapter name; in
particular the 802.11 code 71 with the name `"Ethernet"` gives `wifi`. -/
theorem getInterfaceType_direct_map (t : Nat) (name : String) (s : String)
    (h : interfaceTypeMap t = some s) :
    GetInterfaceType t name = s ∧ GetInterfaceType 71 "Ethernet" = "wifi" := by
  constructor
  · unfold GetInterfaceType
    rw [h]
  · decide

/-- Witness for C8: the wireless code with an unrelated name still maps by
the stage-1 table. -/
theorem getInterfaceType_direct_map_witness :
    interfaceTypeMap 71 = some "wifi" ∧ GetInterfaceType 71 "Ethernet" = "wifi" :=
  ⟨by decide, (getInterfaceType_direct_map 71 "Ethernet" "wifi" (by decide)).1⟩

/-- C9: the classifier is total — for every (type code, name) pair it
returns one of the six fixed categories. -/
theorem getInterfaceType_range (t : Nat) (name : String) :
    GetInterfaceType t name = "ethernet" ∨ GetInterfaceType t name = "wifi" ∨
    GetInterfaceType t name = "cellular" ∨ GetInterfaceType t name = "vpn" ∨
    GetInterfaceType t name = "loopback" ∨ GetInterfaceType t name = "unknown" := by
  unfold GetInterfaceType
  split
  · rename_i s h
    unfold interfaceTypeMap at h
    (repeat' split at h) <;> simp_all
  · (repeat' split) <;> simp

lemma lookupName_isSome_iff_mem_keys {α : Type} (m : List (String × α)) (k : String) :
    (lookupName m k).isSome = true ↔ k ∈ keys m := by
  induction m with
  | nil => simp [lookupName, keys]
  | cons kv rest ih =>
    obtain ⟨k2, v⟩ := kv
    by_cases h : k2 = k
    · subst h
      simp [lookupName, keys]
    · simp [lookupName, keys, h, ih, Ne.symm h]

lemma mem_keys_mapInsert {α : Type} (m : List (String × α)) (k : String) (v : α)
    (x : String) : x ∈ keys (mapInsert m k v) ↔ x ∈ keys m ∨ x = k := by
  unfold mapInsert
  by_cases h : (lookupName m k).isSome = true
  · have hk : k ∈ keys m := (lookupName_isSome_iff_mem_keys m k).mp h
    have hkeys : keys (m.map (fun kv => if kv.1 = k then (k, v) else kv)) = keys m := by
      unfold keys
      rw [List.map_map]
      apply List.map_congr_left
      intro kv _
      by_cases hkv : kv.1 = k
      · simp [hkv]
      · simp [hkv]
    rw [if_pos h, hkeys]
    constructor
    · exact Or.inl
    · rintro (hx | rfl)
      · exact hx
      · exact hk
  · rw [if_neg h]
    simp [keys]

lemma enableLoop_error_of_missing (m : List (String × SourceSim))
    (names : List String) (acc : List (String × SourceSim))
    (h : ∃ n ∈ names, lookupName m n = none) :
    ∃ e, enableLoop m names acc = .error e := by
  induction names generalizing acc with
  | nil => simp at h
  | cons n rest ih =>
    obtain ⟨n0, hn0, hmiss⟩ := h
    rcases List.mem_cons.mp hn0 with rfl | hn0rest
    · rw [enableLoop, hmiss]
      exact ⟨_, rfl⟩
    · cases hl : lookupName m n with
      | none =>
        rw [enableLoop, hl]
        exact ⟨_, rfl⟩
      | some c =>
        rw [enableLoop, hl]
        exact ih _ ⟨n0, hn0rest, hmiss⟩

lemma enableLoop_ok_of_found (m : List (String × SourceSim))
    (names : List String) (acc : List (String × SourceSim))
    (h : ∀ n ∈ names, (lookupName m n).isSome = true) :
    ∃ r, enableLoop m names acc = .ok r ∧
      ∀ x, x ∈ keys r ↔ x ∈ keys acc ∨ x ∈ names := by
  induction names generalizing acc with
  | nil =>
    refine ⟨acc, rfl, ?_⟩
    simp
  | cons n rest ih =>
    have hn := h n (List.mem_cons_self n rest)
    cases hl : lookupName m n with
    | none => rw [hl] at hn; simp at hn
    | some c =>
      obtain ⟨r, hr, hk⟩ := ih (mapInsert acc n c)
        (fun x hx => h x (List.mem_cons_of_mem n hx))
      refine ⟨r, ?_, ?_⟩
      · rw [enableLoop, hl]
        exact hr
      · intro x
        rw [hk x, mem_keys_mapInsert]
        simp only [List.mem_cons]
        tauto

/-- C3: `Enable` is all-or-nothing — if any requested name is missing from
the registry the call fails with an error and the collection (hence
`Collectors()`) is unchanged; if every name is registered it succeeds and
the enabled key set becomes exactly the requested names. -/
theorem enable_all_or_nothing (c : Collection) (names : List String) :
    ((∃ n ∈ names, lookupName c.collectors n = none) →
      (c.enable names).1.isSome = true ∧ (c.enable names).2 = c ∧
      (c.enable names).2.collectorNames = c.collectorNames) ∧
    ((∀ n ∈ names, (lookupName c.collectors n).isSome = true) →
      (c.enable names).1 = none ∧
      ∀ x, x ∈ keys (c.enable names).2.collectors ↔ x ∈ names) := by
  constructor
  · intro h
    obtain ⟨e, he⟩ := enableLoop_error_of_missing c.collectors names [] h
    unfold Collection.enable
    rw [he]
    exact ⟨rfl, rfl, rfl⟩
  · intro h
    obtain ⟨r, hr, hk⟩ := enableLoop_ok_of_found c.collectors names [] h
    unfold Collection.enable
    rw [hr]
    refine ⟨rfl, ?_⟩
    intro x
    have := hk x
    simpa [keys] using this

/-- Witness for C3 on the four-collector registry: `["cpu","bogus"]` fails
and leaves the collection unchanged; `["cpu","memory"]` succeeds. -/
theorem enable_all_or_nothing_witness :
    ((registryC.enable ["cpu", "bogus"]).1.isSome = true ∧
      (registryC.enable ["cpu", "bogus"]).2 = registryC) ∧
    ((registryC.enable ["cpu", "memory"]).1 = none ∧
      ("cpu" ∈ keys (registryC.enable ["cpu", "memory"]).2.collectors ↔
        "cpu" ∈ ["cpu", "memory"])) :=
  ⟨by
    have h := (enable_all_or_nothing registryC ["cpu", "bogus"]).1 (by decide)
    exact ⟨h.1, h.2.1⟩,
   by
    have h := (enable_all_or_nothing registryC ["cpu", "memory"]).2 (by decide)
    exact ⟨h.1, h.2 "cpu"⟩⟩

/-- C4 counterexample: at a concrete collection with a failing source,
`Build` aborts with an error, but the session acquired at the start of
`Build` is NOT released on this failure path — neither `Build` nor the
`run()` failure path closes it, so `miSession` is still held. -/
theorem build_failure_session_not_released :
    (cBuildFail.build).1.isSome = true ∧
    ¬ ((runBuildStep cBuildFail).2.miSession = false) := by decide

lemma buildLoop_error_of_failing (cs : List (String × SourceSim))
    (h : ∃ p ∈ cs, p.2.buildErr.isSome = true) :
    (buildLoop cs).isSome = true := by
  induction cs with
  | nil => simp at h
  | cons p rest ih =>
    obtain ⟨n, s⟩ := p
    cases hb : s.buildErr with
    | some e => rw [buildLoop, hb]; rfl
    | none =>
      rw [buildLoop, hb]
      obtain ⟨q, hq, hqe⟩ := h
      rcases List.mem_cons.mp hq with rfl | hqrest
      · rw [hb] at hqe; simp at hqe
      · exact ih ⟨q, hqrest, hqe⟩

/-- C4 amended: if some enabled source's Build fails, `Collection.Build`
aborts with an error (no partial startup), the run() failure path exits
with code 1, and the shared session remains held — it is released only by a
subsequent `Collection.Close`, which the failure path never invokes. -/
theorem build_failure_aborts_session_held (c : Collection)
    (h : ∃ p ∈ c.collectors, p.2.buildErr.isSome = true) :
    (c.build).1.isSome = true ∧ (c.build).2.miSession = true ∧
    (runBuildStep c).1 = 1 ∧ (runBuildStep c).2.miSession = true ∧
    ((c.build).2.close).miSession = false := by
  have herr : (buildLoop c.collectors).isSome = true :=
    buildLoop_error_of_failing c.collectors h
  refine ⟨herr, rfl, ?_, ?_, rfl⟩
  · unfold runBuildStep Collection.build
    cases hb : buildLoop c.collectors with
    | none => rw [hb] at herr; simp at herr
    | some e => rfl
  · unfold runBuildStep Collection.build
    cases hb : buildLoop c.collectors with
    | none => rfl
    | some e => rfl

/-- Witness for C4 amended at the concrete failing collection. -/
theorem build_failure_aborts_session_held_witness :
    (cBuildFail.build).1.isSome = true ∧ (runBuildStep cBuildFail).2.miSession = true :=
  ⟨(build_failure_aborts_session_held cBuildFail (by decide)).1,
   (build_failure_aborts_session_held cBuildFail (by decide)).2.2.2.1⟩

lemma collectAll_cons (t : CycleSource) (rest : List CycleSource) :
    collectAll (t :: rest) = collectOne t ++ collectAll rest := by
  simp [collectAll]

lemma countP_collectOne_duration (t : CycleSource) (nm : String) :
    (collectOne t).countP (isDurationFor nm) = if t.name = nm then 1 else 0 := by
  obtain ⟨n2, oc, ids⟩ := t
  cases oc <;>
    simp [collectOne, List.countP_append, List.countP_cons, List.countP_map,
      isDurationFor, Function.comp]

lemma countP_collectOne_success (t : CycleSource) (nm : String) :
    (collectOne t).countP (isSuccessFor nm) = if t.name = nm then 1 else 0 := by
  obtain ⟨n2, oc, ids⟩ := t
  cases oc <;>
    simp [collectOne, List.countP_append, List.countP_cons, List.countP_map,
      isSuccessFor, Function.comp]

lemma countP_collectOne_timeout (t : CycleSource) (nm : String) :
    (collectOne t).countP (isTimeoutFor nm) = if t.name = nm then 1 else 0 := by
  obtain ⟨n2, oc, ids⟩ := t
  cases oc <;>
    simp [collectOne, List.countP_append, List.countP_cons, List.countP_map,
      isTimeoutFor, Function.comp]

lemma countP_collectAll_eq_zero (sources : List CycleSource) (nm : String)
    (sel : String → Sample → Bool)
    (hsel : ∀ t nm2, (collectOne t).countP (sel nm2) = if t.name = nm2 then 1 else 0)
    (hscrape : ∀ nm2, sel nm2 Sample.scrapeDuration = false)
    (hnm : nm ∉ sources.map CycleSource.name) :
    (collectAll sources).countP (sel nm) = 0 := by
  induction sources with
  | nil => simp [collectAll, List.countP_cons, hscrape]
  | cons t rest ih =>
    simp only [List.map_cons, List.mem_cons] at hnm
    push_neg at hnm
    rw [collectAll_cons, List.countP_append, hsel t nm,
      if_neg (fun he => hnm.1 he.symm), ih hnm.2]

lemma countP_collectAll_eq_one (sources : List CycleSource)
    (sel : String → Sample → Bool)
    (hsel : ∀ t nm2, (collectOne t).countP (sel nm2) = if t.name = nm2 then 1 else 0)
    (hscrape : ∀ nm2, sel nm2 Sample.scrapeDuration = false)
    (hnd : (sources.map CycleSource.name).Nodup)
    (s : CycleSource) (hs : s ∈ sources) :
    (collectAll sources).countP (sel s.name) = 1 := by
  induction sources with
  | nil => simp at hs
  | cons t rest ih =>
    simp only [List.map_cons, List.nodup_cons] at hnd
    rw [collectAll_cons, List.countP_append]
    rcases List.mem_cons.mp hs with rfl | hrest
    · rw [hsel s s.name, if_pos rfl,
        countP_collectAll_eq_zero rest s.name sel hsel hscrape hnd.1]
    · have hne : t.name ≠ s.name := by
        intro he
        exact hnd.1 (he ▸ List.mem_map_of_mem CycleSource.name hrest)
      rw [hsel t s.name, if_neg hne, ih hnd.2 hrest]

lemma ordinary_mem_collectAll (sources : List CycleSource) (s : CycleSource)
    (hs : s ∈ sources) (hok : s.outcome = Outcome.ok) (i : Nat)
    (hi : i ∈ s.sampleIds) : Sample.ordinary s.name i ∈ collectAll sources := by
  induction sources with
  | nil => simp at hs
  | cons t rest ih =>
    rw [collectAll_cons]
    rcases List.mem_cons.mp hs with rfl | hrest
    · refine List.mem_append_left _ ?_
      unfold collectOne
      rw [hok]
      exact List.mem_append_left _ (List.mem_map_of_mem _ hi)
    · exact List.mem_append_right _ (ih hrest)

/-- C1: in every cycle, for every enabled source (assuming distinct source
names, as the enabled set is a map) the duration/success/timeout
meta-metrics are emitted exactly once each, regardless of that source's
outcome; and every successful source's ordinary samples reach the sink no
matter what the other sources' outcomes are. -/
theorem collectAll_meta_once_and_resilient (sources : List CycleSource)
    (hnd : (sources.map CycleSource.name).Nodup)
    (s : CycleSource) (hs : s ∈ sources) :
    (collectAll sources).countP (isDurationFor s.name) = 1 ∧
    (collectAll sources).countP (isSuccessFor s.name) = 1 ∧
    (collectAll sources).countP (isTimeoutFor s.name) = 1 ∧
    (s.outcome = Outcome.ok →
      ∀ i ∈ s.sampleIds, Sample.ordinary s.name i ∈ collectAll sources) := by
  refine ⟨?_, ?_, ?_, fun hok i hi => ordinary_mem_collectAll sources s hs hok i hi⟩
  · exact countP_collectAll_eq_one sources isDurationFor countP_collectOne_duration
      (fun _ => rfl) hnd s hs
  · exact countP_collectAll_eq_one sources isSuccessFor countP_collectOne_success
      (fun _ => rfl) hnd s hs
  · exact countP_collectAll_eq_one sources isTimeoutFor countP_collectOne_timeout
      (fun _ => rfl) hnd s hs

/-- Witness for C1 at the demonstration cycle: the timed-out source still
gets its meta-metrics exactly once, and the successful source's sample
reaches the sink in the same cycle. -/
theorem collectAll_meta_once_and_resilient_witness :
    (collectAll demoCycle).countP (isDurationFor "net") = 1 ∧
    Sample.ordinary "cpu" 10 ∈ collectAll demoCycle :=
  ⟨(collectAll_meta_once_and_resilient demoCycle (by decide)
      ⟨"net", Outcome.timedOut, [20]⟩ (by decide)).1,
   (collectAll_meta_once_and_resilient demoCycle (by decide)
      ⟨"cpu", Outcome.ok, [10]⟩ (by decide)).2.2.2 (by decide) 10 (by decide)⟩

/-- C5: every delivery is an HTTP PUT to
`<gateway-url>/metrics/job/<job-name>/agent_id/<agent-id>`, and the request
carries Basic-Auth exactly when both a username and a password are
configured. -/
theorem pushMetrics_wire_contract (cfg : PushConfigM) :
    (pushRequest cfg).method = "PUT" ∧
    (pushRequest cfg).path =
      cfg.url ++ "/metrics/job/" ++ cfg.jobName ++ "/agent_id/" ++ cfg.agentID ∧
    ((pushRequest cfg).basicAuth.isSome ↔ (cfg.username ≠ "" ∧ cfg.password ≠ "")) ∧
    (cfg.username ≠ "" → cfg.password ≠ "" →
      (pushRequest cfg).basicAuth = some (cfg.username, cfg.password)) := by
  refine ⟨rfl, rfl, ?_, ?_⟩
  · unfold pushRequest
    by_cases h : cfg.username ≠ "" ∧ cfg.password ≠ "" <;> simp [h]
  · intro hu hp
    unfold pushRequest
    simp [hu, hp]

/-- Witness for C5: with username and password both set the request
carries their Basic-Auth pair; the no-credential request carries none. -/
theorem pushMetrics_wire_contract_witness :
    (pushRequest ⟨"http://h:9091", "u", "p", "windows_agent", "a1"⟩).path =
      "http://h:9091" ++ "/metrics/job/" ++ "windows_agent" ++ "/agent_id/" ++ "a1" ∧
    (pushRequest ⟨"http://h:9091", "u", "p", "windows_agent", "a1"⟩).basicAuth =
      some ("u", "p") ∧
    (pushRequest ⟨"http://h:9091", "", "", "windows_agent", "a1"⟩).basicAuth = none :=
  ⟨(pushMetrics_wire_contract ⟨"http://h:9091", "u", "p", "windows_agent", "a1"⟩).2.1,
   (pushMetrics_wire_contract ⟨"http://h:9091", "u", "p", "windows_agent", "a1"⟩).2.2.2
     (by decide) (by decide),
   by decide⟩

/-- C7 counterexample: the facade does NOT associate samples with the
configured agent identity — `AgentCollectorWrapper.Collect` relays a
label-free sample unchanged, so not every sample leaving the facade carries
the agent identity. -/
theorem facade_does_not_attach_agent_id :
    ¬ (∀ m ∈ (AgentCollectorWrapper.mk "agent_001").collect
          [⟨"windows_cpu_time_total", []⟩],
        ("agent_id", "agent_001") ∈ m.labels) := by
  decide

/-- C7 amended: the agent identity is attached once per delivery batch as
the push grouping key (by `pushMetrics`), so every sample delivered in one
cycle shares the same agent-ID grouping; the orchestrator never attaches
agent identity (its own meta-metrics carry only the `collector` label), and
the facade relays every sample unchanged rather than labeling it. -/
theorem agent_id_attached_at_delivery (w : AgentCollectorWrapper)
    (ms : List Metric) (cfg : PushConfigM) (sources : List CycleSource) :
    (pushRequest cfg).grouping = [("agent_id", cfg.agentID)] ∧
    w.collect ms = ms ∧
    (∀ x ∈ collectAll sources, "agent_id" ∉ (sampleLabels x).map Prod.fst) := by
  refine ⟨rfl, rfl, ?_⟩
  intro x hx
  cases x <;> simp [sampleLabels]

/-- Witness for C7 amended at a concrete cycle and sample. -/
theorem agent_id_attached_at_delivery_witness :
    (pushRequest ⟨"http://h:9091", "", "", "windows_agent", "a1"⟩).grouping =
      [("agent_id", "a1")] ∧
    "agent_id" ∉ (sampleLabels (Sample.durationMetric "cpu")).map Prod.fst :=
  ⟨(agent_id_attached_at_delivery ⟨"a1"⟩ []
      ⟨"http://h:9091", "", "", "windows_agent", "a1"⟩ demoCycle).1,
   (agent_id_attached_at_delivery ⟨"a1"⟩ []
      ⟨"http://h:9091", "", "", "windows_agent", "a1"⟩ demoCycle).2.2
     (Sample.durationMetric "cpu") (by decide)⟩

/-- C6 counterexample: on a failing tick the delivery loop does log at
warning level, but the warning-level log does not carry the duration — the
duration travels on the error-level log inside `pushMetrics`. -/
theorem delivery_warn_log_lacks_duration :
    ((loopRun [LoopEvent.tick true]).logs.any
      (fun l => decide (l.level = LogLevel.warn)) = true) ∧
    ¬ ((loopRun [LoopEvent.tick true]).logs.any
      (fun l => decide (l.level = LogLevel.warn) && l.hasDuration) = true) := by
  decide

lemma loopRun_returned_isSome (events : List LoopEvent) :
    (loopRun events).returned.isSome = true ↔ LoopEvent.shutdown ∈ events := by
  induction events with
  | nil => simp [loopRun]
  | cons e rest ih =>
    cases e with
    | shutdown => simp [loopRun]
    | tick fail => simp [loopRun, ih]

lemma loopRun_returned_nil (events : List LoopEvent) (r : Option Unit)
    (h : (loopRun events).returned = some r) : r = none := by
  induction events with
  | nil => simp [loopRun] at h
  | cons e rest ih =>
    cases e with
    | shutdown =>
      simp [loopRun] at h
      exact h.symm
    | tick fail =>
      rw [loopRun] at h
      exact ih h

lemma loopRun_pushes (events : List LoopEvent) :
    (loopRun events).pushes = ticksBefore events := by
  induction events with
  | nil => rfl
  | cons e rest ih =>
    cases e with
    | shutdown => rfl
    | tick fail => simp [loopRun, ticksBefore, ih]

lemma loopRun_warn_has_err (events : List LoopEvent) :
    ∀ l ∈ (loopRun events).logs, l.level = LogLevel.warn → l.hasErr = true := by
  induction events with
  | nil => simp [loopRun]
  | cons e rest ih =>
    cases e with
    | shutdown => simp [loopRun]
    | tick fail =>
      intro l hl hw
      rw [loopRun] at hl
      cases fail <;> simp [pushMetricsRun] at hl
      · rcases hl with rfl | hl
        · simp [LogEvent.mk] at hw
        · exact ih l hl hw
      · rcases hl with rfl | rfl | hl
        · simp at hw
        · rfl
        · exact ih l hl hw

lemma loopRun_error_has_all (events : List LoopEvent) :
    ∀ l ∈ (loopRun events).logs, l.level = LogLevel.error →
      l.hasErr = true ∧ l.hasDuration = true := by
  induction events with
  | nil => simp [loopRun]
  | cons e rest ih =>
    cases e with
    | shutdown => simp [loopRun]
    | tick fail =>
      intro l hl he
      rw [loopRun] at hl
      cases fail <;> simp [pushMetricsRun] at hl
      · rcases hl with rfl | hl
        · simp at he
        · exact ih l hl he
      · rcases hl with rfl | rfl | hl
        · exact ⟨rfl, rfl⟩
        · simp at he
        · exact ih l hl he

lemma loopRun_failing_tick_warns (events : List LoopEvent)
    (ht : LoopEvent.tick true ∈ events) (hs : LoopEvent.shutdown ∉ events) :
    ∃ l ∈ (loopRun events).logs, l.level = LogLevel.warn ∧ l.hasErr = true := by
  induction events with
  | nil => simp at ht
  | cons e rest ih =>
    cases e with
    | shutdown => simp at hs
    | tick fail =>
      simp only [List.mem_cons] at ht hs
      push_neg at hs
      cases fail with
      | true =>
        refine ⟨⟨LogLevel.warn, true, false, "Metrics push failed"⟩, ?_, rfl, rfl⟩
        rw [loopRun]
        simp [pushMetricsRun]
      | false =>
        have htr : LoopEvent.tick true ∈ rest := by
          rcases ht with he | h
          · simp at he
          · exact h
        obtain ⟨l, hl, hw, herr⟩ := ih htr hs.2
        refine ⟨l, ?_, hw, herr⟩
        rw [loopRun]
        simp [pushMetricsRun]
        right
        exact hl

/-- C6 amended: the delivery loop absorbs every delivery failure — a failed
tick is logged at warning level carrying the error (the duration is carried
by the error-level log that `pushMetrics` emits), the loop keeps ticking
(one push per tick before shutdown, plus the initial push), the error never
propagates past the loop, and `runPushGateway` returns — always nil — only
on a shutdown signal. -/
theorem delivery_failures_absorbed (initialFail : Bool) (events : List LoopEvent) :
    ((runPushGateway initialFail events).returned.isSome = true ↔
      LoopEvent.shutdown ∈ events) ∧
    (∀ r, (runPushGateway initialFail events).returned = some r → r = none) ∧
    ((runPushGateway initialFail events).pushes = ticksBefore events + 1) ∧
    (∀ l ∈ (runPushGateway initialFail events).logs,
      l.level = LogLevel.warn → l.hasErr = true) ∧
    (∀ l ∈ (runPushGateway initialFail events).logs,
      l.level = LogLevel.error → l.hasErr = true ∧ l.hasDuration = true) ∧
    (LoopEvent.tick true ∈ events → LoopEvent.shutdown ∉ events →
      ∃ l ∈ (runPushGateway initialFail events).logs,
        l.level = LogLevel.warn ∧ l.hasErr = true) := by
  have hlogs : (runPushGateway initialFail events).logs =
      (pushMetricsRun initialFail).1 ++
      (match (pushMetricsRun initialFail).2 with
        | some _ => [⟨LogLevel.warn, true, false, "Initial metrics push failed"⟩]
        | none => []) ++ (loopRun events).logs := rfl
  refine ⟨?_, ?_, ?_, ?_, ?_, ?_⟩
  · exact loopRun_returned_isSome events
  · exact fun r h => loopRun_returned_nil events r h
  · show (loopRun events).pushes + 1 = ticksBefore events + 1
    rw [loopRun_pushes]
  · intro l hl hw
    rw [hlogs] at hl
    cases initialFail <;> simp [pushMetricsRun] at hl
    · rcases hl with rfl | hl
      · simp at hw
      · exact loopRun_warn_has_err events l hl hw
    · rcases hl with rfl | rfl | hl
      · simp at hw
      · rfl
      · exact loopRun_warn_has_err events l hl hw
  · intro l hl he
    rw [hlogs] at hl
    cases initialFail <;> simp [pushMetricsRun] at hl
    · rcases hl with rfl | hl
      · simp at he
      · exact loopRun_error_has_all events l hl he
    · rcases hl with rfl | rfl | hl
      · exact ⟨rfl, rfl⟩
      · simp at he
      · exact loopRun_error_has_all events l hl he
  · intro ht hs
    obtain ⟨l, hl, hw, herr⟩ := loopRun_failing_tick_warns events ht hs
    refine ⟨l, ?_, hw, herr⟩
    rw [hlogs]
    exact List.mem_append_right _ hl

/-- Witness for C6 amended: a schedule with one failing tick produces a
warning-level log carrying the error. -/
theorem delivery_failures_absorbed_witness :
    ∃ l ∈ (runPushGateway false [LoopEvent.tick true]).logs,
      l.level = LogLevel.warn ∧ l.hasErr = true :=
  (delivery_failures_absorbed false [LoopEvent.tick true]).2.2.2.2.2
    (by decide) (by decide)

example : expandEnabledCollectors "cpu,memory" = ["cpu", "memory"] := by decide
example : expandEnabledCollectors "cpu,memory,iis,exchange" = ["cpu", "memory"] := by decide
example : expandEnabledCollectors "" = [] := by decide
example : expandEnabledCollectors "cpu" = ["cpu"] := by decide

/-- C10: for every input string the expansion yields only supported names
(`cpu`, `memory`, `net`, `pagefile`) — unsupported names are silently
dropped, so `Enable` over the four-collector registry never fails on the
expansion's output — and the `[defaults]` token expands to all four. -/
theorem expandEnabledCollectors_only_supported (s : String) :
    (∀ x ∈ expandEnabledCollectors s, x ∈ supportedCollectors) ∧
    expandEnabledCollectors "[defaults]" = ["cpu", "memory", "net", "pagefile"] ∧
    (registryC.enable (expandEnabledCollectors s)).1 = none := by
  have hsub : ∀ x ∈ expandEnabledCollectors s, x ∈ supportedCollectors := by
    intro x hx
    simp only [expandEnabledCollectors, List.mem_filter] at hx
    exact List.mem_of_elem_eq_true hx.2
  refine ⟨hsub, by decide, ?_⟩
  have hall : ∀ n ∈ expandEnabledCollectors s,
      (lookupName registryC.collectors n).isSome = true := by
    intro n hn
    have hmem := hsub n hn
    fin_cases hmem <;> decide
  obtain ⟨r, hr, -⟩ :=
    enableLoop_ok_of_found registryC.collectors (expandEnabledCollectors s) [] hall
  unfold Collection.enable
  rw [hr]

/-- Witness for C10 at a concrete flag string containing an unsupported
name: the unknown name is dropped and `Enable` succeeds. -/
theorem expandEnabledCollectors_only_supported_witness :
    ("cpu" ∈ supportedCollectors) ∧
    (registryC.enable (expandEnabledCollectors "cpu,bogus,net")).1 = none :=
  ⟨(expandEnabledCollectors_only_supported "cpu,bogus,net").1 "cpu" (by decide),
   (expandEnabledCollectors_only_supported "cpu,bogus,net").2.2⟩

end AgentWindows
